import Mathlib

/-!
Shallow embedding of the claude-agent-sdk-go control-protocol multiplexer,
subprocess framing reader, message decoder, in-process MCP tool server and
option validation, together with proofs about the claims of the
specification.  Each definition mirrors one Go function of the repository;
the file names follow the Go symbols (`routeMessages`, `processSegment` for
the body of `ReadMessages`, `handleCanUseTool`, `HandleRequest`,
`convertSchema`, `parseContentBlock`, `validateAndConfigurePermissions`).
-/

/-- JSON values as handled by `encoding/json` into `map[string]interface{}`:
null, booleans, numbers, strings, arrays and objects.  Objects are modelled
as association lists in insertion order (Go map iteration order is
unspecified; the claims proved here are order-insensitive or quantify over
the list). -/
inductive JValue where
  | null : JValue
  | bool : Bool → JValue
  | num : Int → JValue
  | str : String → JValue
  | arr : List JValue → JValue
  | obj : List (String × JValue) → JValue

/-- A JSON object body, the Go `map[string]interface{}`. -/
abbrev JObj := List (String × JValue)

/-- First-match field lookup in a JSON object, the Go map access `m[key]`. -/
def lookupField : JObj → String → Option JValue
  | [], _ => none
  | (k, v) :: rest, key => if k = key then some v else lookupField rest key

/-- The Go type assertion `m[key].(string)` with its zero-value default:
returns the string when the field is a string, and `""` otherwise. -/
def getStr (fields : JObj) (key : String) : String :=
  match lookupField fields key with
  | some (JValue.str s) => s
  | _ => ""

/-- The Go type assertion `m[key].(map[string]interface{})` with its
zero-value default: the object body when the field is an object, `[]`
(the nil map) otherwise. -/
def getObj (fields : JObj) (key : String) : JObj :=
  match lookupField fields key with
  | some (JValue.obj o) => o
  | _ => []

/-- The Go map access `m[key]` used as a bare `interface{}` value: a missing
field is the nil interface, which marshals as JSON null. -/
def getField (fields : JObj) (key : String) : JValue :=
  match lookupField fields key with
  | some v => v
  | none => JValue.null

/-! ## Multiplexer reader pump (`queryHandler.routeMessages`)

The reader pump drains the transport frame stream in a single loop.  For
each frame it inspects the top-level `type`: `control_response` frames are
routed to the pending map, `control_request` frames are dispatched to a
handler goroutine, `control_cancel_request` frames are ignored, and every
other frame is forwarded to `messageChan` synchronously inside the loop.
`routeEmits` computes the sequence of frames forwarded to `messageChan`
for a given arrival sequence. -/

/-- The frames emitted on the data channel by `routeMessages`, in emission
order, for the given arrival order of frames from the transport. -/
def routeEmits : List JObj → List JObj
  | [] => []
  | msg :: rest =>
    match getStr msg "type" with
    | "control_response" => routeEmits rest
    | "control_request" => routeEmits rest
    | "control_cancel_request" => routeEmits rest
    | _ => msg :: routeEmits rest

/-- Boolean test for the three control frame types consumed by the reader
pump itself. -/
def isControlFrame (msg : JObj) : Bool :=
  getStr msg "type" == "control_response" ||
  getStr msg "type" == "control_request" ||
  getStr msg "type" == "control_cancel_request"

/-- C2: every frame whose top-level type is not `control_response`,
`control_request` or `control_cancel_request` is emitted on the data
channel, and the emission order is exactly the arrival order: the emitted
sequence is the arrival sequence filtered to non-control frames. -/
theorem routeMessages_emits_data_in_arrival_order (msgs : List JObj) :
    routeEmits msgs = msgs.filter (fun m => !isControlFrame m) := by
  induction msgs with
  | nil => rfl
  | cons m rest ih =>
    unfold routeEmits
    by_cases h1 : getStr m "type" = "control_response"
    · simp [List.filter, isControlFrame, h1, ih]
    · by_cases h2 : getStr m "type" = "control_request"
      · simp [List.filter, isControlFrame, h2, ih]
      · by_cases h3 : getStr m "type" = "control_cancel_request"
        · simp [List.filter, isControlFrame, h3, ih]
        · have : (match getStr m "type" with
              | "control_response" => routeEmits rest
              | "control_request" => routeEmits rest
              | "control_cancel_request" => routeEmits rest
              | _ => m :: routeEmits rest) = m :: routeEmits rest := by
            split
            · exact absurd (by assumption) h1
            · exact absurd (by assumption) h2
            · exact absurd (by assumption) h3
            · rfl
          rw [this, ih]
          have hb : isControlFrame m = false := by
            simp [isControlFrame, h1, h2, h3]
          simp [List.filter, hb]

/-! ## Framing reader (`SubprocessCLITransport.ReadMessages`)

The goroutine in `ReadMessages` scans stdout line by line.  Each scanned
line is trimmed (`strings.TrimSpace`), blank lines are skipped, the line is
split on embedded newlines (`strings.Split(line, "\n")`), and each nonempty
trimmed segment is appended to the accumulator `jsonBuffer`.  If the
accumulator then exceeds `maxBufferSize` bytes a `CLIJSONDecodeError` is
sent on the error channel and the goroutine returns; otherwise the
accumulator is passed to `json.Unmarshal` and, on success, the parsed
object is emitted and the accumulator reset.  The JSON parser itself is
external Go library code, so the embedding is parameterized by a parse
function `String -> Option JObj`.  The Go standard library string helpers
are embedded as structurally recursive functions on the character list of
the string. -/

/-- The Go `strings.TrimSpace`: drop leading and trailing whitespace. -/
def trimSpace (s : String) : String :=
  String.mk (((s.data.dropWhile Char.isWhitespace).reverse.dropWhile Char.isWhitespace).reverse)

/-- Character-list worker for the Go `strings.Split(line, "\n")`: splits at
every newline character. -/
def splitNewlinesAux : List Char → List Char → List String
  | [], acc => [String.mk acc.reverse]
  | c :: cs, acc =>
    if c = '\n' then String.mk acc.reverse :: splitNewlinesAux cs []
    else splitNewlinesAux cs (c :: acc)

/-- The Go `strings.Split(line, "\n")`. -/
def splitNewlines (s : String) : List String :=
  splitNewlinesAux s.data []

/-- The decode error type `CLIJSONDecodeError` (only its message matters
for the claims). -/
structure CLIJSONDecodeError where
  message : String

/-- The error built by `NewCLIJSONDecodeError` when the accumulator
exceeds the configured maximum. -/
def bufferExceededError (maxBufferSize : Nat) : CLIJSONDecodeError :=
  { message := "JSON message exceeded maximum buffer size of " ++
      toString maxBufferSize ++ " bytes" }

/-- The state of the framing loop: the accumulator `jsonBuffer` and the
messages emitted so far on the message channel. -/
structure FramerState where
  buffer : String
  messages : List JObj

/-- One iteration of the inner loop of `ReadMessages` on one segment of a
scanned line: trim, skip blanks, append to the accumulator, fail if the
accumulator exceeds `maxBufferSize` bytes, otherwise attempt a parse and
on success emit the object and clear the accumulator. -/
def processSegment (parse : String → Option JObj) (maxBufferSize : Nat)
    (st : FramerState) (seg : String) : Except CLIJSONDecodeError FramerState :=
  if trimSpace seg = "" then .ok st
  else if (st.buffer ++ trimSpace seg).utf8ByteSize > maxBufferSize then
    .error (bufferExceededError maxBufferSize)
  else
    match parse (st.buffer ++ trimSpace seg) with
    | some data => .ok { buffer := "", messages := st.messages ++ [data] }
    | none => .ok { buffer := st.buffer ++ trimSpace seg, messages := st.messages }

/-- The Go loop over a list of work items with early return on error, used
for both the segment loop and the scanner loop of `ReadMessages`. -/
def runSteps (f : FramerState → α → Except CLIJSONDecodeError FramerState) :
    FramerState → List α → Except CLIJSONDecodeError FramerState
  | st, [] => .ok st
  | st, a :: rest =>
    match f st a with
    | .error e => .error e
    | .ok st1 => runSteps f st1 rest

/-- One iteration of the outer loop of `ReadMessages` on one scanned line:
trim, skip blank lines, split on embedded newlines and process each
segment. -/
def processLine (parse : String → Option JObj) (maxBufferSize : Nat)
    (st : FramerState) (line : String) : Except CLIJSONDecodeError FramerState :=
  if trimSpace line = "" then .ok st
  else runSteps (processSegment parse maxBufferSize) st (splitNewlines (trimSpace line))

/-- The whole read loop of `ReadMessages` over the scanned lines of the
stream: the emitted message sequence on success, or the first framing
error.  When the stream ends, any bytes left in the accumulator are
dropped without an error and without an emission. -/
def readMessages (parse : String → Option JObj) (maxBufferSize : Nat)
    (lines : List String) : Except CLIJSONDecodeError (List JObj) :=
  match runSteps (processLine parse maxBufferSize) { buffer := "", messages := [] } lines with
  | .ok st => .ok st.messages
  | .error e => .error e

/-- Invariant preservation for the early-return loop: if each successful
step preserves `P`, a successful run preserves `P`. -/
theorem runSteps_preserve (P : FramerState → Prop)
    (f : FramerState → α → Except CLIJSONDecodeError FramerState)
    (hf : ∀ s a s2, P s → f s a = .ok s2 → P s2) :
    ∀ (l : List α) (s s2 : FramerState), P s → runSteps f s l = .ok s2 → P s2 := by
  intro l
  induction l with
  | nil =>
    intro s s2 hP h
    simp only [runSteps] at h
    cases h
    exact hP
  | cons a t ih =>
    intro s s2 hP h
    simp only [runSteps] at h
    cases hfa : f s a with
    | error e => rw [hfa] at h; cases h
    | ok s1 =>
      rw [hfa] at h
      exact ih s1 s2 (hf s a s1 hP hfa) h

/-- Successful segment processing keeps the accumulator within the bound. -/
theorem processSegment_ok_buffer_le (parse : String → Option JObj)
    (maxBufferSize : Nat) (st : FramerState) (seg : String) (st2 : FramerState)
    (hst : st.buffer.utf8ByteSize ≤ maxBufferSize)
    (h : processSegment parse maxBufferSize st seg = .ok st2) :
    st2.buffer.utf8ByteSize ≤ maxBufferSize := by
  unfold processSegment at h
  by_cases hblank : trimSpace seg = ""
  · rw [if_pos hblank] at h
    cases h
    exact hst
  · rw [if_neg hblank] at h
    by_cases hover : (st.buffer ++ trimSpace seg).utf8ByteSize > maxBufferSize
    · rw [if_pos hover] at h
      cases h
    · rw [if_neg hover] at h
      cases hp : parse (st.buffer ++ trimSpace seg) with
      | some data =>
        rw [hp] at h
        cases h
        simp [String.utf8ByteSize]
      | none =>
        rw [hp] at h
        cases h
        exact Nat.not_lt.mp hover

/-- Successful line processing keeps the accumulator within the bound. -/
theorem processLine_ok_buffer_le (parse : String → Option JObj)
    (maxBufferSize : Nat) (st : FramerState) (line : String) (st2 : FramerState)
    (hst : st.buffer.utf8ByteSize ≤ maxBufferSize)
    (h : processLine parse maxBufferSize st line = .ok st2) :
    st2.buffer.utf8ByteSize ≤ maxBufferSize := by
  unfold processLine at h
  by_cases hblank : trimSpace line = ""
  · rw [if_pos hblank] at h
    cases h
    exact hst
  · rw [if_neg hblank] at h
    exact runSteps_preserve (fun s => s.buffer.utf8ByteSize ≤ maxBufferSize)
      (processSegment parse maxBufferSize)
      (fun s a s2 hP hstep => processSegment_ok_buffer_le parse maxBufferSize s a s2 hP hstep)
      (splitNewlines (trimSpace line)) st st2 hst h

/-- C3: whenever appending a segment would carry the accumulator past
`maxBufferSize` bytes, the reader emits the `CLIJSONDecodeError` built by
`NewCLIJSONDecodeError` and stops (the `Except.error` result
short-circuits the rest of the stream), and over every successfully
processed prefix the accumulator never exceeds `maxBufferSize` bytes. -/
theorem framer_max_buffer_enforced (parse : String → Option JObj) (maxBufferSize : Nat) :
    (∀ (st : FramerState) (seg : String), trimSpace seg ≠ "" →
        (st.buffer ++ trimSpace seg).utf8ByteSize > maxBufferSize →
        processSegment parse maxBufferSize st seg =
          .error (bufferExceededError maxBufferSize)) ∧
    (∀ (lines : List String) (st st2 : FramerState),
        st.buffer.utf8ByteSize ≤ maxBufferSize →
        runSteps (processLine parse maxBufferSize) st lines = .ok st2 →
        st2.buffer.utf8ByteSize ≤ maxBufferSize) := by
  constructor
  · intro st seg hblank hover
    unfold processSegment
    rw [if_neg hblank, if_pos hover]
  · intro lines st st2 hst h
    exact runSteps_preserve (fun s => s.buffer.utf8ByteSize ≤ maxBufferSize)
      (processLine parse maxBufferSize)
      (fun s a s2 hP hstep => processLine_ok_buffer_le parse maxBufferSize s a s2 hP hstep)
      lines st st2 hst h

/-- A toy parse function standing in for `json.Unmarshal` in concrete
witnesses: it accepts exactly the two-byte string consisting of an opening
and a closing brace (an empty JSON object) and rejects everything else. -/
def toyParse : String → Option JObj :=
  fun s => if s = "\x7b\x7d" then some [] else none

/-- Witness for C3 at concrete inputs: a 4-byte segment against a 3-byte
bound produces the decode error, and a successfully framed stream leaves
the accumulator within the bound. -/
theorem framer_max_buffer_enforced_witness :
    processSegment toyParse 3 { buffer := "", messages := [] } "abcd" =
      .error (bufferExceededError 3) ∧
    ({ buffer := "\x7b", messages := [] } : FramerState).buffer.utf8ByteSize ≤ 3 := by
  have h := framer_max_buffer_enforced toyParse 3
  constructor
  · exact h.1 { buffer := "", messages := [] } "abcd" (by decide) (by decide)
  · exact h.2 ["\x7b"] { buffer := "", messages := [] }
      { buffer := "\x7b", messages := [] } (by decide) (by rfl)

/-- C4: within the buffer bound, a segment whose accumulated text does not
parse is appended to the accumulator with no emission (so the parse is
reattempted on the grown accumulator at the next segment); when the
accumulated text parses, exactly one object is emitted and the accumulator
is cleared; and at end of stream an incomplete trailing accumulator
produces neither an error nor an emission: the reader returns exactly the
objects emitted so far. -/
theorem framer_accumulates_and_emits (parse : String → Option JObj) (maxBufferSize : Nat) :
    (∀ (st : FramerState) (seg : String), trimSpace seg ≠ "" →
        ¬ (st.buffer ++ trimSpace seg).utf8ByteSize > maxBufferSize →
        (parse (st.buffer ++ trimSpace seg) = none →
          processSegment parse maxBufferSize st seg =
            .ok { buffer := st.buffer ++ trimSpace seg, messages := st.messages }) ∧
        (∀ o, parse (st.buffer ++ trimSpace seg) = some o →
          processSegment parse maxBufferSize st seg =
            .ok { buffer := "", messages := st.messages ++ [o] })) ∧
    (∀ (lines : List String) (st2 : FramerState),
        runSteps (processLine parse maxBufferSize) { buffer := "", messages := [] } lines =
          .ok st2 →
        readMessages parse maxBufferSize lines = .ok st2.messages) := by
  constructor
  · intro st seg hblank hover
    constructor
    · intro hp
      unfold processSegment
      rw [if_neg hblank, if_neg hover, hp]
    · intro o hp
      unfold processSegment
      rw [if_neg hblank, if_neg hover, hp]
  · intro lines st2 h
    unfold readMessages
    rw [h]

/-- Witness for C4 at concrete inputs: an open brace is buffered with no
emission, the closing brace completes the object which is emitted once
with the accumulator cleared, and a stream ending with an incomplete
object yields the already-emitted objects with no error. -/
theorem framer_accumulates_and_emits_witness :
    processSegment toyParse 10 { buffer := "", messages := [] } "\x7b" =
      .ok { buffer := "\x7b", messages := [] } ∧
    processSegment toyParse 10 { buffer := "\x7b", messages := [] } "\x7d" =
      .ok { buffer := "", messages := [[]] } ∧
    readMessages toyParse 10 ["\x7b\x7d", "\x7b"] = .ok [[]] := by
  have h := framer_accumulates_and_emits toyParse 10
  refine ⟨?_, ?_, ?_⟩
  · exact (h.1 { buffer := "", messages := [] } "\x7b" (by decide) (by decide)).1 (by rfl)
  · exact (h.1 { buffer := "\x7b", messages := [] } "\x7d" (by decide) (by decide)).2 [] (by rfl)
  · exact h.2 ["\x7b\x7d", "\x7b"] { buffer := "\x7b", messages := [[]] } (by rfl)

/-! ## Outbound control requests and the pending map
(`queryHandler.sendControlRequest`, `queryHandler.handleControlResponse`)

`sendControlRequest` increments `requestCounter`, builds
`requestID = "req_<counter>_<hex>"`, inserts a one-shot result channel into
`pendingControlResponses` under the mutex, writes the control frame, and
waits on the channel with a 60-second timeout; a deferred `delete` removes
the entry from the map when the function returns.  `handleControlResponse`
runs on the reader pump: it extracts `response.request_id`, looks it up in
the pending map, and if present sends the decoded result on the channel,
waking the waiter.

The embedding records the map operations of one `sendControlRequest` call
as an event trace in program order: `insert` is the map insertion before
the write; `release` is the instant the waiter is woken (the channel send
performed by `handleControlResponse`, the 60-second timer firing, or
context cancellation on close); `remove` is the deferred `delete`, which
runs only after the `select` completes, hence after the release.  A write
failure returns before the wait, so its trace has no release. -/

/-- Events on the `pendingControlResponses` map for one request id. -/
inductive PendingEvent where
  | insert : String → PendingEvent
  | release : String → PendingEvent
  | remove : String → PendingEvent
deriving DecidableEq

/-- Effect of one event on the set of pending request ids (a `release` is a
channel send and does not touch the map). -/
def applyPendingEvent (pending : List String) : PendingEvent → List String
  | .insert id => pending ++ [id]
  | .release _ => pending
  | .remove id => pending.erase id

/-- The pending-map contents after a sequence of events. -/
def pendingAfter (pending : List String) (events : List PendingEvent) : List String :=
  events.foldl applyPendingEvent pending

/-- Decoding of an inbound `control_response` payload for the waiter, from
the tail of `handleControlResponse`: subtype `"error"` carries the error
string, anything else carries the inner `response` object. -/
def controlResultOf (response : JObj) : Except String JObj :=
  if getStr response "subtype" = "error" then .error (getStr response "error")
  else .ok (getObj response "response")

/-- The function `handleControlResponse`: extract the `response` object and its
`request_id`; deliver the decoded result to the waiter only when the id is
pending, and drop the frame otherwise. -/
def handleControlResponse (pending : List String) (msg : JObj) :
    Option (String × Except String JObj) :=
  match lookupField msg "response" with
  | some (JValue.obj response) =>
    match lookupField response "request_id" with
    | some (JValue.str requestID) =>
      if requestID ∈ pending then some (requestID, controlResultOf response)
      else none
    | _ => none
  | _ => none

/-- How one `sendControlRequest` call ends: a routed `control_response`
payload, the 60-second timeout, context cancellation (close), or a
transport write failure before the wait. -/
inductive ControlOutcome where
  | response : JObj → ControlOutcome
  | timeout : ControlOutcome
  | cancelled : ControlOutcome
  | writeError : String → ControlOutcome

/-- The observable outcome of one `sendControlRequest` call: the new
request counter, the generated request id, the value returned to the
caller, and the pending-map event trace in program order. -/
structure ControlSendResult where
  newCounter : Nat
  requestID : String
  result : Except String JObj
  events : List PendingEvent

/-- The function `sendControlRequest` for one outbound request, given the random hex
suffix and the way the wait ends.  Every path inserts the id first and
ends with the deferred `delete`; the waiter release (when the wait is
reached) happens strictly before the deferred `delete` runs. -/
def sendControlRequest (counter : Nat) (hexSuffix : String) (request : JObj)
    (outcome : ControlOutcome) : ControlSendResult :=
  let counter1 := counter + 1
  let requestID := "req_" ++ toString counter1 ++ "_" ++ hexSuffix
  match outcome with
  | .writeError m =>
      { newCounter := counter1, requestID := requestID,
        result := .error m,
        events := [.insert requestID, .remove requestID] }
  | .response resp =>
      { newCounter := counter1, requestID := requestID,
        result := controlResultOf resp,
        events := [.insert requestID, .release requestID, .remove requestID] }
  | .timeout =>
      { newCounter := counter1, requestID := requestID,
        result := .error ("control request timeout: " ++ getStr request "subtype"),
        events := [.insert requestID, .release requestID, .remove requestID] }
  | .cancelled =>
      { newCounter := counter1, requestID := requestID,
        result := .error ("control request timeout: " ++ getStr request "subtype"),
        events := [.insert requestID, .release requestID, .remove requestID] }

/-- Number of insertions of a given id in an event trace. -/
def countInserts (id : String) : List PendingEvent → Nat
  | [] => 0
  | .insert j :: rest => (if j = id then 1 else 0) + countInserts id rest
  | _ :: rest => countInserts id rest

/-- Number of removals of a given id in an event trace. -/
def countRemoves (id : String) : List PendingEvent → Nat
  | [] => 0
  | .remove j :: rest => (if j = id then 1 else 0) + countRemoves id rest
  | _ :: rest => countRemoves id rest

/-- Number of waiter releases of a given id in an event trace. -/
def countReleases (id : String) : List PendingEvent → Nat
  | [] => 0
  | .release j :: rest => (if j = id then 1 else 0) + countReleases id rest
  | _ :: rest => countReleases id rest

/-- The claim of the specification, as stated: along the event trace of a
request, from the moment the waiter of an id has been released the pending
map no longer contains that id. -/
def pendingNeverContainsAfterRelease (pending0 : List String)
    (events : List PendingEvent) (id : String) : Prop :=
  ∀ n, PendingEvent.release id ∈ events.take n →
    id ∉ pendingAfter pending0 (events.take n)

/-- Counterexample to C1 as stated: for a successful interrupt request the
trace is insert, release, remove — immediately after the waiter has been
released by `handleControlResponse`, the deferred `delete` of
`sendControlRequest` has not yet run, so the pending map still contains
the id. -/
theorem pending_after_release_counterexample :
    ¬ pendingNeverContainsAfterRelease []
        (sendControlRequest 0 "deadbeef" [("subtype", JValue.str "interrupt")]
          (.response [("subtype", JValue.str "success")])).events
        "req_1_deadbeef" := by
  intro h
  have h2 := h 2 (by decide)
  exact h2 (by decide)

/-- C1 as amended: for each request id inserted by `sendControlRequest`,
the trace inserts it exactly once and removes it exactly once, the waiter
is released at most once, the removal is the last action of the call (so
it comes after the release, not before), and once the call has returned
the pending map no longer contains the id — but between the release and
the deferred removal the id is still present. -/
theorem sendControlRequest_pending_lifecycle (counter : Nat) (hexSuffix : String)
    (request : JObj) (pending : List String) (outcome : ControlOutcome)
    (hfresh : (sendControlRequest counter hexSuffix request outcome).requestID ∉ pending) :
    countInserts (sendControlRequest counter hexSuffix request outcome).requestID
      (sendControlRequest counter hexSuffix request outcome).events = 1 ∧
    countRemoves (sendControlRequest counter hexSuffix request outcome).requestID
      (sendControlRequest counter hexSuffix request outcome).events = 1 ∧
    countReleases (sendControlRequest counter hexSuffix request outcome).requestID
      (sendControlRequest counter hexSuffix request outcome).events ≤ 1 ∧
    (sendControlRequest counter hexSuffix request outcome).events.getLast? =
      some (.remove (sendControlRequest counter hexSuffix request outcome).requestID) ∧
    pendingAfter pending (sendControlRequest counter hexSuffix request outcome).events =
      pending ∧
    (sendControlRequest counter hexSuffix request outcome).requestID ∉
      pendingAfter pending (sendControlRequest counter hexSuffix request outcome).events := by
  have herase : ∀ id : String, id ∉ pending → (pending ++ [id]).erase id = pending := by
    intro id hid
    rw [List.erase_append_right _ hid, List.erase_cons_head, List.append_nil]
  cases outcome with
  | writeError m =>
    simp only [sendControlRequest] at hfresh
    refine ⟨by simp [sendControlRequest, countInserts, countRemoves],
      by simp [sendControlRequest, countInserts, countRemoves],
      by simp [sendControlRequest, countReleases], by simp [sendControlRequest], ?_, ?_⟩
    · simp only [sendControlRequest, pendingAfter, List.foldl, applyPendingEvent]
      exact herase _ hfresh
    · simp only [sendControlRequest, pendingAfter, List.foldl, applyPendingEvent]
      rw [herase _ hfresh]
      exact hfresh
  | response resp =>
    simp only [sendControlRequest] at hfresh
    refine ⟨by simp [sendControlRequest, countInserts, countRemoves, countReleases],
      by simp [sendControlRequest, countInserts, countRemoves, countReleases],
      by simp [sendControlRequest, countReleases], by simp [sendControlRequest], ?_, ?_⟩
    · simp only [sendControlRequest, pendingAfter, List.foldl, applyPendingEvent]
      exact herase _ hfresh
    · simp only [sendControlRequest, pendingAfter, List.foldl, applyPendingEvent]
      rw [herase _ hfresh]
      exact hfresh
  | timeout =>
    simp only [sendControlRequest] at hfresh
    refine ⟨by simp [sendControlRequest, countInserts, countRemoves, countReleases],
      by simp [sendControlRequest, countInserts, countRemoves, countReleases],
      by simp [sendControlRequest, countReleases], by simp [sendControlRequest], ?_, ?_⟩
    · simp only [sendControlRequest, pendingAfter, List.foldl, applyPendingEvent]
      exact herase _ hfresh
    · simp only [sendControlRequest, pendingAfter, List.foldl, applyPendingEvent]
      rw [herase _ hfresh]
      exact hfresh
  | cancelled =>
    simp only [sendControlRequest] at hfresh
    refine ⟨by simp [sendControlRequest, countInserts, countRemoves, countReleases],
      by simp [sendControlRequest, countInserts, countRemoves, countReleases],
      by simp [sendControlRequest, countReleases], by simp [sendControlRequest], ?_, ?_⟩
    · simp only [sendControlRequest, pendingAfter, List.foldl, applyPendingEvent]
      exact herase _ hfresh
    · simp only [sendControlRequest, pendingAfter, List.foldl, applyPendingEvent]
      rw [herase _ hfresh]
      exact hfresh

/-- Witness for the amended C1 at a concrete timeout run: the id is
inserted and removed exactly once, the removal is last, and the pending
map is empty again after the call. -/
theorem sendControlRequest_pending_lifecycle_witness :
    countInserts (sendControlRequest 0 "deadbeef" [("subtype", JValue.str "interrupt")]
        ControlOutcome.timeout).requestID
      (sendControlRequest 0 "deadbeef" [("subtype", JValue.str "interrupt")]
        ControlOutcome.timeout).events = 1 ∧
    countRemoves (sendControlRequest 0 "deadbeef" [("subtype", JValue.str "interrupt")]
        ControlOutcome.timeout).requestID
      (sendControlRequest 0 "deadbeef" [("subtype", JValue.str "interrupt")]
        ControlOutcome.timeout).events = 1 ∧
    countReleases (sendControlRequest 0 "deadbeef" [("subtype", JValue.str "interrupt")]
        ControlOutcome.timeout).requestID
      (sendControlRequest 0 "deadbeef" [("subtype", JValue.str "interrupt")]
        ControlOutcome.timeout).events ≤ 1 ∧
    (sendControlRequest 0 "deadbeef" [("subtype", JValue.str "interrupt")]
        ControlOutcome.timeout).events.getLast? =
      some (.remove (sendControlRequest 0 "deadbeef" [("subtype", JValue.str "interrupt")]
        ControlOutcome.timeout).requestID) ∧
    pendingAfter [] (sendControlRequest 0 "deadbeef" [("subtype", JValue.str "interrupt")]
        ControlOutcome.timeout).events = [] ∧
    (sendControlRequest 0 "deadbeef" [("subtype", JValue.str "interrupt")]
        ControlOutcome.timeout).requestID ∉
      pendingAfter [] (sendControlRequest 0 "deadbeef" [("subtype", JValue.str "interrupt")]
        ControlOutcome.timeout).events :=
  sendControlRequest_pending_lifecycle 0 "deadbeef"
    [("subtype", JValue.str "interrupt")] [] ControlOutcome.timeout (by decide)

/-! ## Inbound permission requests (`queryHandler.handleCanUseTool`)

`handleCanUseTool` fails when no `canUseTool` callback is configured,
extracts `tool_name` and `input` from the request, invokes the callback,
and translates the returned `PermissionResult` into the control-response
payload.  For `PermissionResultAllow` the payload carries
`behavior: "allow"` and `updatedInput`, which is the callback result field
`UpdatedInput` when that is non-nil and otherwise the original input
echoed back; `updatedPermissions` is added only when non-nil and
nonempty.  For `PermissionResultDeny` the payload carries
`behavior: "deny"`, the message, and `interrupt` only when true. -/

/-- A permission update forwarded opaquely to the CLI (its shape does not
matter for the claims). -/
structure PermissionUpdate where
  val : JValue

/-- The `PermissionResult` interface with its two implementations
`PermissionResultAllow{UpdatedInput, UpdatedPermissions}` and
`PermissionResultDeny{Message, Interrupt}`; `invalid` stands for any other
value of the interface, hitting the default branch of the switch. -/
inductive PermissionResult where
  | allow : Option JObj → Option (List PermissionUpdate) → PermissionResult
  | deny : String → Bool → PermissionResult
  | invalid : PermissionResult

/-- Marshalling of a list of permission updates (opaque). -/
def permissionUpdatesJSON (updates : List PermissionUpdate) : JValue :=
  JValue.arr (updates.map (fun u => u.val))

/-- The conditional `updatedPermissions` entry of the allow payload: added
only when the list is non-nil and nonempty. -/
def permsSuffix : Option (List PermissionUpdate) → JObj
  | some us => if us.length > 0 then [("updatedPermissions", permissionUpdatesJSON us)] else []
  | none => []

/-- The translation at the tail of `handleCanUseTool`, from the callback
result and the original request input to the control-response payload. -/
def permissionResponseFor (originalInput : JObj) :
    PermissionResult → Except String JObj
  | .allow updatedInput updatedPermissions =>
    .ok ([("behavior", JValue.str "allow")] ++
      (match updatedInput with
       | some u => [("updatedInput", JValue.obj u)]
       | none => [("updatedInput", JValue.obj originalInput)]) ++
      permsSuffix updatedPermissions)
  | .deny message interrupt =>
    .ok ([("behavior", JValue.str "deny"), ("message", JValue.str message)] ++
      (if interrupt then [("interrupt", JValue.bool interrupt)] else []))
  | .invalid => .error "invalid permission result type"

/-- The function `handleCanUseTool`: fail when the callback is absent, otherwise
extract `tool_name` and `input`, run the callback and translate its
result.  The callback is a function value supplied by the host. -/
def handleCanUseTool
    (canUseTool : Option (String → JObj → Except String PermissionResult))
    (request : JObj) : Except String JObj :=
  match canUseTool with
  | none => .error "canUseTool callback is not provided"
  | some callback =>
    match callback (getStr request "tool_name") (getObj request "input") with
    | .error e => .error e
    | .ok result => permissionResponseFor (getObj request "input") result

/-- C5: when the permission callback answers Allow, the control response
payload has `behavior: "allow"`, and `updatedInput` is the value of
`UpdatedInput` when that is non-nil and otherwise the original input
echoed from the request. -/
theorem handleCanUseTool_allow_echoes_input
    (callback : String → JObj → Except String PermissionResult) (request : JObj)
    (updatedInput : Option JObj) (updatedPermissions : Option (List PermissionUpdate))
    (hres : callback (getStr request "tool_name") (getObj request "input") =
      .ok (.allow updatedInput updatedPermissions)) :
    ∃ response, handleCanUseTool (some callback) request = .ok response ∧
      lookupField response "behavior" = some (JValue.str "allow") ∧
      lookupField response "updatedInput" =
        some (JValue.obj (match updatedInput with
          | some u => u
          | none => getObj request "input")) := by
  cases updatedInput with
  | some u =>
    refine ⟨("behavior", JValue.str "allow") :: ("updatedInput", JValue.obj u) ::
        permsSuffix updatedPermissions, ?_, ?_, ?_⟩
    · unfold handleCanUseTool
      dsimp only
      rw [hres]
      simp [permissionResponseFor]
    · simp [lookupField]
    · simp [lookupField]
  | none =>
    refine ⟨("behavior", JValue.str "allow") ::
        ("updatedInput", JValue.obj (getObj request "input")) ::
        permsSuffix updatedPermissions, ?_, ?_, ?_⟩
    · unfold handleCanUseTool
      dsimp only
      rw [hres]
      simp [permissionResponseFor]
    · simp [lookupField]
    · simp [lookupField]

/-- Witness for C5: a callback that allows without an updated input sees
the original request input echoed back. -/
theorem handleCanUseTool_allow_echoes_input_witness :
    ∃ response,
      handleCanUseTool
        (some (fun _ _ => .ok (.allow none none)))
        [("tool_name", JValue.str "Write"),
         ("input", JValue.obj [("file_path", JValue.str "/etc/a")])] = .ok response ∧
      lookupField response "behavior" = some (JValue.str "allow") ∧
      lookupField response "updatedInput" =
        some (JValue.obj (match (none : Option JObj) with
          | some u => u
          | none => getObj [("tool_name", JValue.str "Write"),
              ("input", JValue.obj [("file_path", JValue.str "/etc/a")])] "input")) :=
  handleCanUseTool_allow_echoes_input
    (fun _ _ => .ok (.allow none none))
    [("tool_name", JValue.str "Write"),
     ("input", JValue.obj [("file_path", JValue.str "/etc/a")])]
    none none (by rfl)

/-! ## Hook callback responses (`queryHandler.handleHookCallback`,
`HookJSONOutput`)

`handleHookCallback` looks up the callback id, invokes the hook, and turns
the returned `HookJSONOutput` struct into the control-response payload via
`json.Marshal` followed by `json.Unmarshal`, so the payload carries
exactly the JSON field names of the struct tags.  The struct tags, in
declaration order, are `continue,omitempty`, `suppressOutput,omitempty`,
`stopReason,omitempty`, `async,omitempty`, `asyncTimeout,omitempty`,
`decision,omitempty`, `systemMessage,omitempty`, `reason,omitempty` and
`hookSpecificOutput,omitempty`.  With `omitempty`, a nil pointer field is
omitted, and the map field is omitted when nil or empty. -/

/-- The `HookJSONOutput` struct.  Pointer fields are `Option`; the
`HookSpecificOutput` map is `Option JObj` with `none` for the nil map. -/
structure HookJSONOutput where
  Continue : Option Bool := none
  SuppressOutput : Option Bool := none
  StopReason : Option String := none
  Async : Option Bool := none
  AsyncTimeout : Option Int := none
  Decision : Option String := none
  SystemMessage : Option String := none
  Reason : Option String := none
  HookSpecificOutput : Option JObj := none

/-- One optional JSON field under `omitempty`: present under its tag name
exactly when the value is present. -/
def optField (name : String) : Option JValue → JObj
  | some v => [(name, v)]
  | none => []

/-- Serialization by `json.Marshal` of `HookJSONOutput`: each field under its struct-tag
name, in declaration order, with `omitempty` semantics (nil pointers
omitted; the map omitted when nil or empty). -/
def marshalHookJSONOutput (o : HookJSONOutput) : JObj :=
  optField "continue" (o.Continue.map JValue.bool) ++
  optField "suppressOutput" (o.SuppressOutput.map JValue.bool) ++
  optField "stopReason" (o.StopReason.map JValue.str) ++
  optField "async" (o.Async.map JValue.bool) ++
  optField "asyncTimeout" (o.AsyncTimeout.map JValue.num) ++
  optField "decision" (o.Decision.map JValue.str) ++
  optField "systemMessage" (o.SystemMessage.map JValue.str) ++
  optField "reason" (o.Reason.map JValue.str) ++
  optField "hookSpecificOutput"
    (match o.HookSpecificOutput with
     | some m => if m.isEmpty then none else some (JValue.obj m)
     | none => none)

/-- The nine on-the-wire hook output field names, in struct order. -/
def hookFieldNames : List String :=
  ["continue", "suppressOutput", "stopReason", "async", "asyncTimeout",
   "decision", "systemMessage", "reason", "hookSpecificOutput"]

/-- Whether a given hook output field is set (and hence serialized): a
pointer field is set when non-nil, the map field when non-nil and
nonempty. -/
def hookFieldSet (o : HookJSONOutput) (name : String) : Bool :=
  if name = "continue" then o.Continue.isSome
  else if name = "suppressOutput" then o.SuppressOutput.isSome
  else if name = "stopReason" then o.StopReason.isSome
  else if name = "async" then o.Async.isSome
  else if name = "asyncTimeout" then o.AsyncTimeout.isSome
  else if name = "decision" then o.Decision.isSome
  else if name = "systemMessage" then o.SystemMessage.isSome
  else if name = "reason" then o.Reason.isSome
  else if name = "hookSpecificOutput" then
    (match o.HookSpecificOutput with | some m => !m.isEmpty | none => false)
  else false

/-- Key list of one optional field. -/
theorem optField_keys (name : String) (v : Option JValue) :
    (optField name v).map Prod.fst = if v.isSome then [name] else [] := by
  cases v <;> simp [optField]

/-- Fold one conditional singleton into the head of a filtered list. -/
theorem singleton_append_ite (c : Bool) (a : String) (L : List String) :
    (if c = true then [a] else []) ++ L = if c = true then a :: L else L := by
  cases c <;> simp

/-- C6: the serialized hook callback payload carries exactly the
case-sensitive field names `continue`, `suppressOutput`, `stopReason`,
`async`, `asyncTimeout`, `decision`, `systemMessage`, `reason`,
`hookSpecificOutput` — each present exactly when the corresponding field
is set, omitted when unset, and no other key ever appears. -/
theorem hook_output_field_names_exact (o : HookJSONOutput) :
    (marshalHookJSONOutput o).map Prod.fst =
      hookFieldNames.filter (hookFieldSet o) := by
  have e1 : (o.Continue.map JValue.bool).isSome = o.Continue.isSome := by
    cases o.Continue <;> rfl
  have e2 : (o.SuppressOutput.map JValue.bool).isSome = o.SuppressOutput.isSome := by
    cases o.SuppressOutput <;> rfl
  have e3 : (o.StopReason.map JValue.str).isSome = o.StopReason.isSome := by
    cases o.StopReason <;> rfl
  have e4 : (o.Async.map JValue.bool).isSome = o.Async.isSome := by
    cases o.Async <;> rfl
  have e5 : (o.AsyncTimeout.map JValue.num).isSome = o.AsyncTimeout.isSome := by
    cases o.AsyncTimeout <;> rfl
  have e6 : (o.Decision.map JValue.str).isSome = o.Decision.isSome := by
    cases o.Decision <;> rfl
  have e7 : (o.SystemMessage.map JValue.str).isSome = o.SystemMessage.isSome := by
    cases o.SystemMessage <;> rfl
  have e8 : (o.Reason.map JValue.str).isSome = o.Reason.isSome := by
    cases o.Reason <;> rfl
  have e9 : (match o.HookSpecificOutput with
      | some m => if m.isEmpty then none else some (JValue.obj m)
      | none => none).isSome =
      (match o.HookSpecificOutput with
       | some m => !m.isEmpty
       | none => false) := by
    cases o.HookSpecificOutput with
    | none => rfl
    | some m => cases hm : m.isEmpty <;> simp [hm]
  have h1 : hookFieldSet o "continue" = o.Continue.isSome := by simp [hookFieldSet]
  have h2 : hookFieldSet o "suppressOutput" = o.SuppressOutput.isSome := by
    simp [hookFieldSet]
  have h3 : hookFieldSet o "stopReason" = o.StopReason.isSome := by simp [hookFieldSet]
  have h4 : hookFieldSet o "async" = o.Async.isSome := by simp [hookFieldSet]
  have h5 : hookFieldSet o "asyncTimeout" = o.AsyncTimeout.isSome := by
    simp [hookFieldSet]
  have h6 : hookFieldSet o "decision" = o.Decision.isSome := by simp [hookFieldSet]
  have h7 : hookFieldSet o "systemMessage" = o.SystemMessage.isSome := by
    simp [hookFieldSet]
  have h8 : hookFieldSet o "reason" = o.Reason.isSome := by simp [hookFieldSet]
  have h9 : hookFieldSet o "hookSpecificOutput" =
      (match o.HookSpecificOutput with
       | some m => !m.isEmpty
       | none => false) := by simp [hookFieldSet]
  simp only [marshalHookJSONOutput, List.map_append, optField_keys]
  rw [e1, e2, e3, e4, e5, e6, e7, e8, e9]
  simp only [List.append_assoc]
  simp only [singleton_append_ite]
  simp only [hookFieldNames, List.filter_cons, List.filter_nil]
  rw [h1, h2, h3, h4, h5, h6, h7, h8, h9]

/-! ## In-process tool server (`mcp.SdkMcpServer`)

`CreateSdkMcpServer` freezes the tool list and builds `toolMap` by
assigning `toolMap[tool.Name] = tool` in order, so on duplicate names the
last tool wins.  `HandleRequest` dispatches on the JSON-RPC `method`;
`handleCallTool` looks the tool up, returns `-32602` when it is absent,
converts a handler error into a success envelope with `isError: true` and
a textual error content block, and returns a successful handler payload
unchanged; any unknown method yields `-32601`.  `convertSchema`
normalizes tool input schemas: a `map[string]string` of field name to
primitive type, or a `map[string]interface{}` without both `type` and
`properties`, becomes an object schema with every field required, while a
pre-formed JSON Schema object passes through unchanged.  The reflection
branch for Go struct types is outside this embedding; `defaultSchema`
covers the final fallback. -/

/-- The input schema values accepted by `convertSchema`: a
`map[string]string` of name to primitive type, a `map[string]interface{}`,
or any other value hitting the default branch. -/
inductive SchemaInput where
  | primMap : List (String × String) → SchemaInput
  | jsonMap : JObj → SchemaInput
  | defaultSchema : SchemaInput

/-- The function `convertTypeToSchema`: map a primitive type tag to its JSON Schema;
non-strings and unknown tags fall back to `string`. -/
def convertTypeToSchema (typeVal : JValue) : JObj :=
  match typeVal with
  | JValue.str typeStr =>
    if typeStr = "string" then [("type", JValue.str "string")]
    else if typeStr = "number" ∨ typeStr = "float" ∨ typeStr = "float64" then
      [("type", JValue.str "number")]
    else if typeStr = "integer" ∨ typeStr = "int" then
      [("type", JValue.str "integer")]
    else if typeStr = "boolean" ∨ typeStr = "bool" then
      [("type", JValue.str "boolean")]
    else [("type", JValue.str "string")]
  | _ => [("type", JValue.str "string")]

/-- The simple name-to-type conversion shared by the two map branches of
`convertSchema`: an `object` schema whose properties are the converted
types and whose `required` list is every field name. -/
def simpleMapSchema (m : JObj) : JObj :=
  [("type", JValue.str "object"),
   ("properties", JValue.obj (m.map (fun p => (p.1, JValue.obj (convertTypeToSchema p.2))))),
   ("required", JValue.arr (m.map (fun p => JValue.str p.1)))]

/-- The function `convertSchema`: normalize a tool input schema to JSON Schema. -/
def convertSchema : SchemaInput → JObj
  | .primMap m => simpleMapSchema (m.map (fun p => (p.1, JValue.str p.2)))
  | .jsonMap m =>
    if (lookupField m "type").isSome && (lookupField m "properties").isSome then m
    else simpleMapSchema m
  | .defaultSchema =>
    [("type", JValue.str "object"), ("properties", JValue.obj [])]

/-- The struct `SdkMcpTool`: a registered tool with its handler (the Go handler takes
a context and the arguments map and returns a payload or an error). -/
structure SdkMcpTool where
  Name : String
  Description : String
  InputSchema : SchemaInput
  Handler : JObj → Except String JObj

/-- The struct `SdkMcpServer` after `CreateSdkMcpServer`: name, version and the
frozen tool list. -/
structure SdkMcpServer where
  Name : String
  Version : String
  Tools : List SdkMcpTool

/-- The `toolMap` lookup: `CreateSdkMcpServer` assigns
`toolMap[tool.Name] = tool` in list order, so the last tool with a given
name wins. -/
def findTool (s : SdkMcpServer) (name : String) : Option SdkMcpTool :=
  s.Tools.reverse.find? (fun t => t.Name == name)

/-- A JSON-RPC error envelope as built throughout `sdk_server.go`. -/
def jsonrpcError (msgID : JValue) (code : Int) (message : String) : JObj :=
  [("jsonrpc", JValue.str "2.0"), ("id", msgID),
   ("error", JValue.obj [("code", JValue.num code), ("message", JValue.str message)])]

/-- The function `handleInitialize`. -/
def handleInitialize (s : SdkMcpServer) (msgID : JValue) : JObj :=
  [("jsonrpc", JValue.str "2.0"), ("id", msgID),
   ("result", JValue.obj
     [("protocolVersion", JValue.str "2024-11-05"),
      ("capabilities", JValue.obj [("tools", JValue.obj [])]),
      ("serverInfo", JValue.obj
        [("name", JValue.str s.Name), ("version", JValue.str s.Version)])])]

/-- The function `handleListTools`: every registered tool with its normalized input
schema. -/
def handleListTools (s : SdkMcpServer) (msgID : JValue) : JObj :=
  [("jsonrpc", JValue.str "2.0"), ("id", msgID),
   ("result", JValue.obj
     [("tools", JValue.arr (s.Tools.map (fun t => JValue.obj
        [("name", JValue.str t.Name),
         ("description", JValue.str t.Description),
         ("inputSchema", JValue.obj (convertSchema t.InputSchema))])))])]

/-- The function `handleCallTool`: look up the tool by `params.name`; absent tools give
`-32602`; a handler error becomes a success envelope whose result has
`isError: true` and one textual error content block; a handler success
returns the payload unchanged. -/
def handleCallTool (s : SdkMcpServer) (msgID : JValue) (params : JObj) : JObj :=
  match findTool s (getStr params "name") with
  | none =>
    jsonrpcError msgID (-32602) ("Tool \x27" ++ getStr params "name" ++ "\x27 not found")
  | some tool =>
    match tool.Handler (getObj params "arguments") with
    | .error e =>
      [("jsonrpc", JValue.str "2.0"), ("id", msgID),
       ("result", JValue.obj
         [("content", JValue.arr [JValue.obj
            [("type", JValue.str "text"), ("text", JValue.str ("Error: " ++ e))]]),
          ("isError", JValue.bool true)])]
    | .ok result =>
      [("jsonrpc", JValue.str "2.0"), ("id", msgID), ("result", JValue.obj result)]

/-- The function `HandleRequest`: dispatch on the JSON-RPC `method`. -/
def HandleRequest (s : SdkMcpServer) (message : JObj) : JObj :=
  match getStr message "method" with
  | "initialize" => handleInitialize s (getField message "id")
  | "tools/list" => handleListTools s (getField message "id")
  | "tools/call" => handleCallTool s (getField message "id") (getObj message "params")
  | "notifications/initialized" =>
    [("jsonrpc", JValue.str "2.0"), ("result", JValue.obj [])]
  | m => jsonrpcError (getField message "id") (-32601) ("Method \x27" ++ m ++ "\x27 not found")

/-- C7: for JSON-RPC requests to the tool server, (a) `tools/call` with a
name not in the tool catalogue returns error `-32602` whose message says
the tool was not found; (b) `tools/call` whose handler fails returns a
success envelope whose result has `isError: true` and one textual error
content block; (c) a successful handler payload is returned unchanged as
the `result`; (d) any method outside `initialize`, `tools/list`,
`tools/call`, `notifications/initialized` returns error `-32601` whose
message says the method was not found. -/
theorem tool_server_request_routing (s : SdkMcpServer) (message : JObj) :
    (getStr message "method" = "tools/call" →
      findTool s (getStr (getObj message "params") "name") = none →
      HandleRequest s message =
        [("jsonrpc", JValue.str "2.0"), ("id", getField message "id"),
         ("error", JValue.obj
           [("code", JValue.num (-32602)),
            ("message", JValue.str
              ("Tool \x27" ++ getStr (getObj message "params") "name" ++ "\x27 not found"))])]) ∧
    (∀ tool e, getStr message "method" = "tools/call" →
      findTool s (getStr (getObj message "params") "name") = some tool →
      tool.Handler (getObj (getObj message "params") "arguments") = .error e →
      HandleRequest s message =
        [("jsonrpc", JValue.str "2.0"), ("id", getField message "id"),
         ("result", JValue.obj
           [("content", JValue.arr [JValue.obj
              [("type", JValue.str "text"), ("text", JValue.str ("Error: " ++ e))]]),
            ("isError", JValue.bool true)])]) ∧
    (∀ tool result, getStr message "method" = "tools/call" →
      findTool s (getStr (getObj message "params") "name") = some tool →
      tool.Handler (getObj (getObj message "params") "arguments") = .ok result →
      HandleRequest s message =
        [("jsonrpc", JValue.str "2.0"), ("id", getField message "id"),
         ("result", JValue.obj result)]) ∧
    (getStr message "method" ≠ "initialize" →
      getStr message "method" ≠ "tools/list" →
      getStr message "method" ≠ "tools/call" →
      getStr message "method" ≠ "notifications/initialized" →
      HandleRequest s message =
        [("jsonrpc", JValue.str "2.0"), ("id", getField message "id"),
         ("error", JValue.obj
           [("code", JValue.num (-32601)),
            ("message", JValue.str
              ("Method \x27" ++ getStr message "method" ++ "\x27 not found"))])]) := by
  refine ⟨?_, ?_, ?_, ?_⟩
  · intro hm hfind
    unfold HandleRequest
    rw [hm]
    unfold handleCallTool
    rw [hfind]
    rfl
  · intro tool e hm hfind hh
    unfold HandleRequest
    rw [hm]
    unfold handleCallTool
    rw [hfind]
    dsimp only
    rw [hh]
    rfl
  · intro tool result hm hfind hh
    unfold HandleRequest
    rw [hm]
    unfold handleCallTool
    rw [hfind]
    dsimp only
    rw [hh]
    rfl
  · intro h1 h2 h3 h4
    unfold HandleRequest
    split
    · exact absurd (by assumption) h1
    · exact absurd (by assumption) h2
    · exact absurd (by assumption) h3
    · exact absurd (by assumption) h4
    · rfl

/-- The `add` tool of the witness server. -/
def addTool : SdkMcpTool :=
  { Name := "add",
    Description := "Add two numbers",
    InputSchema := .primMap [("a", "number"), ("b", "number")],
    Handler := fun _ => .ok [("content", JValue.arr [JValue.obj
      [("type", JValue.str "text"), ("text", JValue.str "5")]])] }

/-- A tool whose handler always fails, for the witness. -/
def boomTool : SdkMcpTool :=
  { Name := "boom",
    Description := "Always fails",
    InputSchema := .primMap [("x", "string")],
    Handler := fun _ => .error "kaboom" }

/-- The concrete witness server. -/
def calcServer : SdkMcpServer :=
  { Name := "calc", Version := "1.0.0", Tools := [addTool, boomTool] }

/-- Witness for C7: the four routing behaviors at concrete requests
against `calcServer`. -/
theorem tool_server_request_routing_witness :
    HandleRequest calcServer
      [("method", JValue.str "tools/call"), ("id", JValue.num 1),
       ("params", JValue.obj [("name", JValue.str "missing")])] =
      [("jsonrpc", JValue.str "2.0"), ("id", JValue.num 1),
       ("error", JValue.obj
         [("code", JValue.num (-32602)),
          ("message", JValue.str "Tool \x27missing\x27 not found")])] ∧
    HandleRequest calcServer
      [("method", JValue.str "tools/call"), ("id", JValue.num 2),
       ("params", JValue.obj [("name", JValue.str "boom")])] =
      [("jsonrpc", JValue.str "2.0"), ("id", JValue.num 2),
       ("result", JValue.obj
         [("content", JValue.arr [JValue.obj
            [("type", JValue.str "text"), ("text", JValue.str "Error: kaboom")]]),
          ("isError", JValue.bool true)])] ∧
    HandleRequest calcServer
      [("method", JValue.str "tools/call"), ("id", JValue.num 3),
       ("params", JValue.obj [("name", JValue.str "add"),
        ("arguments", JValue.obj [("a", JValue.num 2), ("b", JValue.num 3)])])] =
      [("jsonrpc", JValue.str "2.0"), ("id", JValue.num 3),
       ("result", JValue.obj [("content", JValue.arr [JValue.obj
          [("type", JValue.str "text"), ("text", JValue.str "5")]])])] ∧
    HandleRequest calcServer
      [("method", JValue.str "resources/list"), ("id", JValue.num 4)] =
      [("jsonrpc", JValue.str "2.0"), ("id", JValue.num 4),
       ("error", JValue.obj
         [("code", JValue.num (-32601)),
          ("message", JValue.str "Method \x27resources/list\x27 not found")])] := by
  refine ⟨?_, ?_, ?_, ?_⟩
  · exact (tool_server_request_routing calcServer
      [("method", JValue.str "tools/call"), ("id", JValue.num 1),
       ("params", JValue.obj [("name", JValue.str "missing")])]).1 (by rfl) (by rfl)
  · exact (tool_server_request_routing calcServer
      [("method", JValue.str "tools/call"), ("id", JValue.num 2),
       ("params", JValue.obj [("name", JValue.str "boom")])]).2.1 boomTool "kaboom"
      (by rfl) (by rfl) (by rfl)
  · exact (tool_server_request_routing calcServer
      [("method", JValue.str "tools/call"), ("id", JValue.num 3),
       ("params", JValue.obj [("name", JValue.str "add"),
        ("arguments", JValue.obj [("a", JValue.num 2), ("b", JValue.num 3)])])]).2.2.1
      addTool [("content", JValue.arr [JValue.obj
        [("type", JValue.str "text"), ("text", JValue.str "5")]])]
      (by rfl) (by rfl) (by rfl)
  · exact (tool_server_request_routing calcServer
      [("method", JValue.str "resources/list"), ("id", JValue.num 4)]).2.2.2
      (by decide) (by decide) (by decide) (by decide)

/-- C8: a tool input schema given as a map from field name to primitive
type is normalized to an `object` schema whose `required` list is exactly
the list of all field names of the map; a schema that is already a JSON Schema
object (having both `type` and `properties`) passes through unchanged;
and `tools/list` reports each registered tool with its normalized input
schema. -/
theorem tool_schema_normalization (s : SdkMcpServer) (msgID : JValue) :
    (∀ (m : List (String × String)),
      lookupField (convertSchema (.primMap m)) "type" = some (JValue.str "object") ∧
      lookupField (convertSchema (.primMap m)) "required" =
        some (JValue.arr (m.map (fun p => JValue.str p.1)))) ∧
    (∀ (m : JObj), (lookupField m "type").isSome →
      (lookupField m "properties").isSome →
      convertSchema (.jsonMap m) = m) ∧
    (lookupField (getObj (handleListTools s msgID) "result") "tools" =
      some (JValue.arr (s.Tools.map (fun t => JValue.obj
        [("name", JValue.str t.Name),
         ("description", JValue.str t.Description),
         ("inputSchema", JValue.obj (convertSchema t.InputSchema))])))) := by
  refine ⟨?_, ?_, ?_⟩
  · intro m
    constructor
    · simp [convertSchema, simpleMapSchema, lookupField]
    · simp [convertSchema, simpleMapSchema, lookupField]
  · intro m htype hprops
    unfold convertSchema
    have hcond : ((lookupField m "type").isSome && (lookupField m "properties").isSome) = true := by
      rw [htype, hprops]
      rfl
    dsimp only
    rw [if_pos hcond]
  · simp [handleListTools, getObj, lookupField]

/-- Witness for C8: the `add(a:number, b:number)` tool is listed with an
object schema requiring exactly `a` and `b`, and a pre-formed JSON Schema
passes through `convertSchema` unchanged. -/
theorem tool_schema_normalization_witness :
    lookupField (convertSchema (.primMap [("a", "number"), ("b", "number")])) "type" =
      some (JValue.str "object") ∧
    lookupField (convertSchema (.primMap [("a", "number"), ("b", "number")])) "required" =
      some (JValue.arr [JValue.str "a", JValue.str "b"]) ∧
    convertSchema (.jsonMap
      [("type", JValue.str "object"),
       ("properties", JValue.obj [("a", JValue.obj [("type", JValue.str "number")])]),
       ("additionalProperties", JValue.bool false)]) =
      [("type", JValue.str "object"),
       ("properties", JValue.obj [("a", JValue.obj [("type", JValue.str "number")])]),
       ("additionalProperties", JValue.bool false)] := by
  have h := tool_schema_normalization calcServer (JValue.num 1)
  refine ⟨(h.1 [("a", "number"), ("b", "number")]).1,
    (h.1 [("a", "number"), ("b", "number")]).2, ?_⟩
  exact h.2.1
    [("type", JValue.str "object"),
     ("properties", JValue.obj [("a", JValue.obj [("type", JValue.str "number")])]),
     ("additionalProperties", JValue.bool false)] (by rfl) (by rfl)

/-! ## Message decoder content blocks (`parser.go parseContentBlock`)

`parseContentBlock` requires the element to be an object with a string
`type` field and dispatches on it.  The switch in the source has exactly
four cases — `text`, `thinking`, `tool_use`, `tool_result` — and a default
that rejects every other type string, including `image`, even though the
`ImageBlock` content-block type exists in the data model. -/

/-- The content-block union of the data model.  The `image` constructor
mirrors `ImageBlock{Data, MimeType}`, which the parser never produces. -/
inductive ContentBlock where
  | text : String → ContentBlock
  | thinking : String → String → ContentBlock
  | toolUse : String → String → JObj → ContentBlock
  | toolResult : String → Option JValue → Option Bool → ContentBlock
  | image : String → String → ContentBlock

/-- The function `parseContentBlock` from `parser.go`. -/
def parseContentBlock (item : JValue) : Except String ContentBlock :=
  match item with
  | JValue.obj block =>
    match lookupField block "type" with
    | some (JValue.str blockType) =>
      if blockType = "text" then
        match lookupField block "text" with
        | some (JValue.str text) => .ok (.text text)
        | _ => .error "text block missing \x27text\x27 field"
      else if blockType = "thinking" then
        match lookupField block "thinking" with
        | some (JValue.str thinking) =>
          match lookupField block "signature" with
          | some (JValue.str signature) => .ok (.thinking thinking signature)
          | _ => .error "thinking block missing \x27signature\x27 field"
        | _ => .error "thinking block missing \x27thinking\x27 field"
      else if blockType = "tool_use" then
        match lookupField block "id" with
        | some (JValue.str id) =>
          match lookupField block "name" with
          | some (JValue.str name) =>
            match lookupField block "input" with
            | some (JValue.obj input) => .ok (.toolUse id name input)
            | _ => .error "tool_use block missing \x27input\x27 field"
          | _ => .error "tool_use block missing \x27name\x27 field"
        | _ => .error "tool_use block missing \x27id\x27 field"
      else if blockType = "tool_result" then
        match lookupField block "tool_use_id" with
        | some (JValue.str toolUseID) =>
          .ok (.toolResult toolUseID (lookupField block "content")
            (match lookupField block "is_error" with
             | some (JValue.bool b) => some b
             | _ => none))
        | _ => .error "tool_result block missing \x27tool_use_id\x27 field"
      else .error ("unknown content block type: " ++ blockType)
    | _ => .error "content block missing \x27type\x27 field"
  | _ => .error "content block must be object"

/-- Counterexample to C9 as stated: a well-formed `image` element with its
`data` and `mime_type` fields present is rejected by the parser with an
unknown-type error, because the dispatch switch has no `image` case. -/
theorem parse_image_block_counterexample :
    parseContentBlock (JValue.obj
      [("type", JValue.str "image"), ("data", JValue.str "iVBORw0KGgo"),
       ("mime_type", JValue.str "image/png")]) =
      .error "unknown content block type: image" := by
  rfl

/-- C9 as amended: the decoder dispatches on the `type` field over exactly
the four block kinds `text`, `thinking`, `tool_use`, `tool_result`; an
element of one of these four types decodes successfully when its required
fields are present; `image` elements and every other type string are
rejected with a parse error. -/
theorem parseContentBlock_dispatch (block : JObj) :
    (∀ text, lookupField block "type" = some (JValue.str "text") →
      lookupField block "text" = some (JValue.str text) →
      parseContentBlock (JValue.obj block) = .ok (.text text)) ∧
    (∀ thinking signature,
      lookupField block "type" = some (JValue.str "thinking") →
      lookupField block "thinking" = some (JValue.str thinking) →
      lookupField block "signature" = some (JValue.str signature) →
      parseContentBlock (JValue.obj block) = .ok (.thinking thinking signature)) ∧
    (∀ id name input,
      lookupField block "type" = some (JValue.str "tool_use") →
      lookupField block "id" = some (JValue.str id) →
      lookupField block "name" = some (JValue.str name) →
      lookupField block "input" = some (JValue.obj input) →
      parseContentBlock (JValue.obj block) = .ok (.toolUse id name input)) ∧
    (∀ toolUseID,
      lookupField block "type" = some (JValue.str "tool_result") →
      lookupField block "tool_use_id" = some (JValue.str toolUseID) →
      parseContentBlock (JValue.obj block) =
        .ok (.toolResult toolUseID (lookupField block "content")
          (match lookupField block "is_error" with
           | some (JValue.bool b) => some b
           | _ => none))) ∧
    (∀ t, lookupField block "type" = some (JValue.str t) →
      t ∉ (["text", "thinking", "tool_use", "tool_result"] : List String) →
      parseContentBlock (JValue.obj block) =
        .error ("unknown content block type: " ++ t)) := by
  refine ⟨?_, ?_, ?_, ?_, ?_⟩
  · intro text htype htext
    unfold parseContentBlock
    dsimp only
    rw [htype]
    dsimp only
    rw [if_pos rfl, htext]
  · intro thinking signature htype hthinking hsignature
    unfold parseContentBlock
    dsimp only
    rw [htype]
    dsimp only
    rw [if_neg (by decide), if_pos rfl, hthinking]
    dsimp only
    rw [hsignature]
  · intro id name input htype hid hname hinput
    unfold parseContentBlock
    dsimp only
    rw [htype]
    dsimp only
    rw [if_neg (by decide), if_neg (by decide), if_pos rfl, hid]
    dsimp only
    rw [hname]
    dsimp only
    rw [hinput]
  · intro toolUseID htype htuid
    unfold parseContentBlock
    dsimp only
    rw [htype]
    dsimp only
    rw [if_neg (by decide), if_neg (by decide), if_neg (by decide), if_pos rfl, htuid]
  · intro t htype hnot
    have h1 : ¬ (t = "text") := by
      intro h; exact hnot (by rw [h]; decide)
    have h2 : ¬ (t = "thinking") := by
      intro h; exact hnot (by rw [h]; decide)
    have h3 : ¬ (t = "tool_use") := by
      intro h; exact hnot (by rw [h]; decide)
    have h4 : ¬ (t = "tool_result") := by
      intro h; exact hnot (by rw [h]; decide)
    unfold parseContentBlock
    dsimp only
    rw [htype]
    dsimp only
    rw [if_neg h1, if_neg h2, if_neg h3, if_neg h4]

/-- Witness for the amended C9 at concrete blocks of each kind, plus the
rejection of a concrete unknown type. -/
theorem parseContentBlock_dispatch_witness :
    parseContentBlock (JValue.obj
      [("type", JValue.str "text"), ("text", JValue.str "hi")]) =
      .ok (.text "hi") ∧
    parseContentBlock (JValue.obj
      [("type", JValue.str "thinking"), ("thinking", JValue.str "hm"),
       ("signature", JValue.str "sig")]) =
      .ok (.thinking "hm" "sig") ∧
    parseContentBlock (JValue.obj
      [("type", JValue.str "tool_use"), ("id", JValue.str "t1"),
       ("name", JValue.str "Bash"), ("input", JValue.obj [])]) =
      .ok (.toolUse "t1" "Bash" []) ∧
    parseContentBlock (JValue.obj
      [("type", JValue.str "tool_result"), ("tool_use_id", JValue.str "t1")]) =
      .ok (.toolResult "t1"
        (lookupField [("type", JValue.str "tool_result"),
          ("tool_use_id", JValue.str "t1")] "content")
        (match lookupField [("type", JValue.str "tool_result"),
          ("tool_use_id", JValue.str "t1")] "is_error" with
         | some (JValue.bool b) => some b
         | _ => none)) ∧
    parseContentBlock (JValue.obj [("type", JValue.str "video")]) =
      .error ("unknown content block type: " ++ "video") := by
  refine ⟨?_, ?_, ?_, ?_, ?_⟩
  · exact (parseContentBlock_dispatch
      [("type", JValue.str "text"), ("text", JValue.str "hi")]).1 "hi" (by rfl) (by rfl)
  · exact (parseContentBlock_dispatch
      [("type", JValue.str "thinking"), ("thinking", JValue.str "hm"),
       ("signature", JValue.str "sig")]).2.1 "hm" "sig" (by rfl) (by rfl) (by rfl)
  · exact (parseContentBlock_dispatch
      [("type", JValue.str "tool_use"), ("id", JValue.str "t1"),
       ("name", JValue.str "Bash"), ("input", JValue.obj [])]).2.2.1 "t1" "Bash" []
      (by rfl) (by rfl) (by rfl) (by rfl)
  · exact (parseContentBlock_dispatch
      [("type", JValue.str "tool_result"), ("tool_use_id", JValue.str "t1")]).2.2.2.1
      "t1" (by rfl) (by rfl)
  · exact (parseContentBlock_dispatch
      [("type", JValue.str "video")]).2.2.2.2 "video" (by rfl) (by decide)

/-! ## Permission validation (`helpers.go validateAndConfigurePermissions`)

The function receives `*ClaudeAgentOptions`.  When `CanUseTool` is set it
validates streaming mode and the absence of `PermissionPromptToolName`,
then copies the struct (`newOpts := *options`), sets
`PermissionPromptToolName` to the sentinel `"stdio"` on the copy, and
returns `&newOpts`; otherwise it returns the original pointer unchanged.
Go pointer semantics are embedded with a small heap: a list of option
records addressed by index, with `none` for the nil pointer.  The claims
are about whether the record behind the original pointer changes. -/

/-- The fields of `ClaudeAgentOptions` relevant to permission validation,
plus representative fields standing for the rest of the struct (the copy
`newOpts := *options` copies every field).  `CanUseTool` keeps only
nil-ness, which is all the function inspects. -/
structure ClaudeAgentOptions where
  CanUseTool : Option Unit := none
  PermissionPromptToolName : Option String := none
  AllowedTools : List String := []
  Model : Option String := none
  MaxTurns : Option Int := none

/-- A heap of option records; a Go pointer is an index (or `none` for
nil). -/
abbrev OptionsHeap := List ClaudeAgentOptions

/-- The function `validateAndConfigurePermissions`: returns the possibly extended heap
and either an error or the pointer to the configured options.  A nil
pointer allocates a fresh zero value; a set `CanUseTool` requires
streaming and no `PermissionPromptToolName`, and on success allocates the
copy with the `"stdio"` sentinel; otherwise the original pointer is
returned as is. -/
def validateAndConfigurePermissions (heap : OptionsHeap) (options : Option Nat)
    (isStreaming : Bool) : OptionsHeap × Except String Nat :=
  match options with
  | none => (heap ++ [{}], .ok heap.length)
  | some a =>
    let opts := (heap.get? a).getD {}
    if opts.CanUseTool.isSome then
      if !isStreaming then
        (heap, .error "can_use_tool callback requires streaming mode")
      else if opts.PermissionPromptToolName.isSome then
        (heap, .error "can_use_tool callback cannot be used with permission_prompt_tool_name")
      else
        (heap ++ [{ opts with PermissionPromptToolName := some "stdio" }], .ok heap.length)
    else (heap, .ok a)

/-- C10: `validateAndConfigurePermissions` never mutates the input
options: after the call, on every path, the record at the original
address is byte-for-byte the record that was there before — in particular
its `PermissionPromptToolName` — and when the sentinel `"stdio"` is set it
is set on a freshly allocated copy at a different address. -/
theorem validateAndConfigurePermissions_no_mutation (heap : OptionsHeap)
    (a : Nat) (isStreaming : Bool) (ha : a < heap.length) :
    ((validateAndConfigurePermissions heap (some a) isStreaming).1.get? a =
      heap.get? a) ∧
    (∀ b, (validateAndConfigurePermissions heap (some a) isStreaming).2 = .ok b →
      b ≠ a →
      (validateAndConfigurePermissions heap (some a) isStreaming).1.get? b =
        some { ((heap.get? a).getD {}) with PermissionPromptToolName := some "stdio" }) := by
  unfold validateAndConfigurePermissions
  dsimp only
  by_cases hc : ((heap.get? a).getD {}).CanUseTool.isSome
  · rw [if_pos hc]
    cases isStreaming with
    | false =>
      simp only [Bool.not_false, if_pos rfl]
      constructor
      · rfl
      · intro b hb
        cases hb
    | true =>
      simp only [Bool.not_true]
      rw [if_neg (by simp)]
      by_cases hp : ((heap.get? a).getD {}).PermissionPromptToolName.isSome
      · rw [if_pos hp]
        constructor
        · rfl
        · intro b hb
          cases hb
      · rw [if_neg hp]
        constructor
        · exact List.get?_append ha
        · intro b hb _
          cases hb
          rw [List.get?_append_right (Nat.le_refl _)]
          simp
  · rw [if_neg hc]
    constructor
    · rfl
    · intro b hb hba
      cases hb
      exact absurd rfl hba

/-- Witness for C10: with a configured callback in streaming mode, the
original record (address 0) is unchanged, still without a
`PermissionPromptToolName`, and the returned pointer (address 1) holds
the copy carrying the `"stdio"` sentinel. -/
theorem validateAndConfigurePermissions_no_mutation_witness :
    ((validateAndConfigurePermissions
        [{ CanUseTool := some (), AllowedTools := ["Bash"] }] (some 0) true).1.get? 0 =
      ([{ CanUseTool := some (), AllowedTools := ["Bash"] }] : OptionsHeap).get? 0) ∧
    (∀ b, (validateAndConfigurePermissions
        [{ CanUseTool := some (), AllowedTools := ["Bash"] }] (some 0) true).2 = .ok b →
      b ≠ 0 →
      (validateAndConfigurePermissions
        [{ CanUseTool := some (), AllowedTools := ["Bash"] }] (some 0) true).1.get? b =
        some { ((([{ CanUseTool := some (), AllowedTools := ["Bash"] }] : OptionsHeap).get? 0).getD {}) with
          PermissionPromptToolName := some "stdio" }) :=
  validateAndConfigurePermissions_no_mutation
    [{ CanUseTool := some (), AllowedTools := ["Bash"] }] 0 true (by decide)
